import Mathlib

/-!
Verification of the Pusha backend (FastAPI "Tamagotchi Cat" mini-app).

Shallow embedding of the two algorithmic cores:
* the mood decay/boost state machine of `src/main.py` (sections 4–6 of the
  file: `read_db`, `write_db`, `default_state`, `apply_decay` and the
  `/state` and `/pet` handlers), and
* the initData signature verification of `src/validate.py`, whose parsing
  and HMAC comparison are delegated to the external `init_data_py` library
  and are therefore modelled from the specification (§4.1).

Timestamps are modelled as rationals (Python floats; all concrete inputs
used below are exactly representable in binary floating point, so the
rational model agrees with the float computation on them).  Python's `int()`
conversion truncates toward zero, which `pyInt` mirrors.
-/

namespace Pusha

/-- Python `int()` applied to a real value: truncation toward zero. -/
def pyInt (q : ℚ) : ℤ := if 0 ≤ q then ⌊q⌋ else ⌈q⌉

theorem pyInt_eq_floor_of_nonneg {q : ℚ} (h : 0 ≤ q) : pyInt q = ⌊q⌋ := by
  simp [pyInt, h]

theorem pyInt_nonneg {q : ℚ} (h : 0 ≤ q) : 0 ≤ pyInt q := by
  rw [pyInt_eq_floor_of_nonneg h]
  exact Int.floor_nonneg.mpr h

theorem pyInt_zero : pyInt 0 = 0 := by simp [pyInt]

/-- A stored mood record (`{"happiness": …, "last_pet": …}` in `state.json`). -/
structure MoodRec where
  happiness : ℤ
  last_pet : ℚ
deriving DecidableEq, Repr

/-- Constant `DECAY_PER_HOUR = 4` from `src/main.py`. -/
def DECAY_PER_HOUR : ℤ := 4

/-- Constant `BOOST_ON_PET = 5` from `src/main.py`. -/
def BOOST_ON_PET : ℤ := 5

/-- Function `default_state()` from `src/main.py`: happiness 80, `last_pet = now`. -/
def default_state (now : ℚ) : MoodRec := { happiness := 80, last_pet := now }

/-- Function `apply_decay` from `src/main.py`:
`hours = (now - rec["last_pet"]) / 3600`;
`rec["happiness"] = max(0, rec["happiness"] - int(hours * DECAY_PER_HOUR))`.
The wall clock read `time.time()` is the explicit parameter `now`. -/
def apply_decay (r : MoodRec) (now : ℚ) : MoodRec :=
  let hours : ℚ := (now - r.last_pet) / 3600
  { r with happiness := max 0 (r.happiness - pyInt (hours * (DECAY_PER_HOUR : ℚ))) }

/-- The JSON object stored in `state.json`: user-id string → record. -/
abbrev Db := List (String × MoodRec)

/-- Python `db.get(uid, …)` on the stored mapping. -/
def dbLookup : Db → String → Option MoodRec
  | [], _ => none
  | (k, v) :: rest, uid => if k = uid then some v else dbLookup rest uid

/-- Python `db[uid] = r`: replace the binding if present, else add it. -/
def dbInsert : Db → String → MoodRec → Db
  | [], uid, r => [(uid, r)]
  | (k, v) :: rest, uid, r =>
    if k = uid then (uid, r) :: rest else (k, v) :: dbInsert rest uid r

/-- The state file `state.json` on disk. -/
structure FS where
  contents : Db
deriving DecidableEq, Repr

/-- Function `read_db()` from `src/main.py` (the JSON-decode-error fallback to `{}`
is not exercised by any claim; the file holds a well-formed mapping). -/
def read_db (fs : FS) : Db := fs.contents

/-- Function `write_db(db)` from `src/main.py`: rewrite the whole file. -/
def write_db (_fs : FS) (db : Db) : FS := ⟨db⟩

/-- The pure computation of the `/pet` handler body between its `read_db`
and `write_db` calls: fetch-or-default, decay, boost, stamp `now`. -/
def pet_compute (db : Db) (uid : String) (now : ℚ) : MoodRec :=
  let r0 := (dbLookup db uid).getD (default_state now)
  let r1 := apply_decay r0 now
  { happiness := min 100 (r1.happiness + BOOST_ON_PET), last_pet := now }

/-- The `/pet` handler from `src/main.py` (post-authentication): returns the
response record and the state file after its `write_db`. -/
def pet (fs : FS) (uid : String) (now : ℚ) : MoodRec × FS :=
  let db := read_db fs
  let r := pet_compute db uid now
  (r, write_db fs (dbInsert db uid r))

/-- The `/state` handler from `src/main.py` (post-authentication): returns
the decayed projection; it never calls `write_db`, so the file is returned
unchanged. -/
def state (fs : FS) (uid : String) (now : ℚ) : MoodRec × FS :=
  let db := read_db fs
  let r := (dbLookup db uid).getD (default_state now)
  (apply_decay r now, fs)

theorem dbLookup_dbInsert_ne (db : Db) (uid v : String) (r : MoodRec)
    (h : v ≠ uid) : dbLookup (dbInsert db uid r) v = dbLookup db v := by
  have huv : uid ≠ v := fun e => h e.symm
  induction db with
  | nil => simp [dbInsert, dbLookup, huv]
  | cons p rest ih =>
    cases p with
    | mk k val =>
      by_cases hk : k = uid
      · subst hk
        simp [dbInsert, dbLookup, huv]
      · simp only [dbInsert, if_neg hk, dbLookup]
        by_cases hv : k = v
        · simp [hv]
        · simp [hv, ih]

theorem pyInt_int_eval (q : ℚ) (z : ℤ) (h : q = (z : ℚ)) : pyInt q = z := by
  subst h
  rcases le_or_lt 0 (z : ℚ) with h0 | h0
  · rw [pyInt_eq_floor_of_nonneg h0, Int.floor_intCast]
  · rw [pyInt, if_neg (not_le.mpr h0), Int.ceil_intCast]

theorem pyInt_neg_frac_eval (q : ℚ) (z : ℤ) (h1 : (z : ℚ) - 1 < q)
    (h2 : q ≤ (z : ℚ)) (h3 : q < 0) : pyInt q = z := by
  rw [pyInt, if_neg (not_le.mpr h3), Int.ceil_eq_iff.mpr ⟨h1, h2⟩]

/-- C2 counterexample: on a record 450 seconds "from the future"
(`last_pet = 450`, `now = 0`, elapsed hours `-1/8`), the code's
`int(hours * 4)` truncates `-1/2` to `0` and leaves happiness at 50,
while the claim's `floor` formula prescribes `max(0, 50 - ⌊-1/2⌋) = 51`. -/
theorem c2_counterexample :
    (apply_decay ⟨50, 450⟩ 0).happiness = 50 ∧
    max 0 (50 - ⌊((0 : ℚ) - 450) / 3600 * ((DECAY_PER_HOUR : ℤ) : ℚ)⌋) = 51 := by
  have harg : ((0 : ℚ) - 450) / 3600 * ((DECAY_PER_HOUR : ℤ) : ℚ) = -1 / 2 := by
    norm_num [DECAY_PER_HOUR]
  constructor
  · have hp : pyInt (((0 : ℚ) - 450) / 3600 * ((DECAY_PER_HOUR : ℤ) : ℚ)) = 0 := by
      rw [harg]
      exact pyInt_neg_frac_eval _ 0 (by norm_num) (by norm_num) (by norm_num)
    simp only [apply_decay]
    rw [hp]
    omega
  · rw [harg]
    have hf : (⌊(-1 / 2 : ℚ)⌋ : ℤ) = -1 := by
      rw [Int.floor_eq_iff]
      constructor <;> norm_num
    rw [hf]
    omega

/-- C2 (amended): for every record and every `now` at or after
`lastInteraction`, `apply_decay` yields
`happiness = max(0, happiness - ⌊elapsedHours * DECAY_PER_HOUR⌋)` (there
truncation toward zero coincides with `floor`) and leaves `last_pet`
unchanged; for `now` earlier than `lastInteraction` the code truncates
toward zero instead of flooring. -/
theorem c2_decay_formula (r : MoodRec) (now : ℚ) (h : r.last_pet ≤ now) :
    (apply_decay r now).happiness
        = max 0 (r.happiness - ⌊(now - r.last_pet) / 3600 * ((DECAY_PER_HOUR : ℤ) : ℚ)⌋)
      ∧ (apply_decay r now).last_pet = r.last_pet := by
  have hq : (0 : ℚ) ≤ (now - r.last_pet) / 3600 * ((DECAY_PER_HOUR : ℤ) : ℚ) := by
    have h1 : (0 : ℚ) ≤ (now - r.last_pet) / 3600 := by
      apply div_nonneg (by linarith) (by norm_num)
    have h2 : (0 : ℚ) ≤ ((DECAY_PER_HOUR : ℤ) : ℚ) := by norm_num [DECAY_PER_HOUR]
    exact mul_nonneg h1 h2
  refine ⟨?_, rfl⟩
  simp [apply_decay, pyInt_eq_floor_of_nonneg hq]

/-- C2 witness: the spec's own example — `happiness = 90`, three hours
elapsed — instantiates the amended decay formula. -/
theorem c2_witness :
    ((⟨90, 0⟩ : MoodRec).last_pet ≤ (10800 : ℚ))
      ∧ ((apply_decay ⟨90, 0⟩ 10800).happiness
          = max 0 (90 - ⌊((10800 : ℚ) - 0) / 3600 * ((DECAY_PER_HOUR : ℤ) : ℚ)⌋)
        ∧ (apply_decay ⟨90, 0⟩ 10800).last_pet = 0) ∧
    (apply_decay ⟨90, 0⟩ 10800).happiness = 78 := by
  refine ⟨by norm_num, c2_decay_formula ⟨90, 0⟩ 10800 (by norm_num), ?_⟩
  have harg : ((10800 : ℚ) - 0) / 3600 * ((DECAY_PER_HOUR : ℤ) : ℚ) = ((12 : ℤ) : ℚ) := by
    norm_num [DECAY_PER_HOUR]
  have hp : pyInt (((10800 : ℚ) - 0) / 3600 * ((DECAY_PER_HOUR : ℤ) : ℚ)) = 12 :=
    pyInt_int_eval _ 12 harg
  simp only [apply_decay]
  rw [hp]
  omega

/-- C3 counterexample: with `happiness = 90`, `last_pet = 0` and
`now = 10800` (three hours later), one `apply_decay` gives 78 but a second
application with the identical `now` subtracts the 12 points again, giving
66 — the function is not idempotent because `last_pet` is not reset. -/
theorem c3_counterexample :
    apply_decay (apply_decay ⟨90, 0⟩ 10800) 10800 ≠ apply_decay ⟨90, 0⟩ 10800 := by
  have harg : ((10800 : ℚ) - 0) / 3600 * ((DECAY_PER_HOUR : ℤ) : ℚ) = ((12 : ℤ) : ℚ) := by
    norm_num [DECAY_PER_HOUR]
  have hp : pyInt (((10800 : ℚ) - 0) / 3600 * ((DECAY_PER_HOUR : ℤ) : ℚ)) = 12 :=
    pyInt_int_eval _ 12 harg
  have h1 : apply_decay ⟨90, 0⟩ 10800 = ⟨78, 0⟩ := by
    simp only [apply_decay]
    rw [hp, show max (0 : ℤ) (90 - 12) = 78 from by omega]
  have h2 : apply_decay ⟨78, 0⟩ 10800 = ⟨66, 0⟩ := by
    simp only [apply_decay]
    rw [hp, show max (0 : ℤ) (78 - 12) = 66 from by omega]
  rw [h1, h2]
  intro e
  exact absurd (congrArg MoodRec.happiness e) (by decide)

/-- C3 (amended): the function `apply_decay` under a fixed clock is idempotent exactly
when the decay amount `int(elapsedHours * DECAY_PER_HOUR)` is zero, or it
is positive and a single application already drives happiness to 0; in all
other cases the second application subtracts (or, for negative elapsed
time, adds) the amount a second time, because `last_pet` is not reset by
decay.  Repeated `/state` queries are nevertheless stable because the
handler never persists the decayed record. -/
theorem c3_idempotent_iff (r : MoodRec) (now : ℚ) :
    apply_decay (apply_decay r now) now = apply_decay r now
      ↔ (pyInt ((now - r.last_pet) / 3600 * ((DECAY_PER_HOUR : ℤ) : ℚ)) = 0
          ∨ (0 < pyInt ((now - r.last_pet) / 3600 * ((DECAY_PER_HOUR : ℤ) : ℚ))
              ∧ (apply_decay r now).happiness = 0)) := by
  obtain ⟨h, lp⟩ := r
  simp only [apply_decay, MoodRec.mk.injEq, and_true]
  generalize pyInt ((now - lp) / 3600 * ((DECAY_PER_HOUR : ℤ) : ℚ)) = d
  omega

/-- C4: the code violates "decay never increases happiness": with
`happiness = 50`, `last_pet = 3600` and `now = 0` (one hour of negative
elapsed time), `apply_decay` subtracts `int(-1 * 4) = -4` and returns
happiness 54 — an increase the spec explicitly forbids. -/
theorem c4_decay_increases :
    (apply_decay ⟨50, 3600⟩ 0).happiness = 54 := by
  have harg : ((0 : ℚ) - 3600) / 3600 * ((DECAY_PER_HOUR : ℤ) : ℚ) = ((-4 : ℤ) : ℚ) := by
    norm_num [DECAY_PER_HOUR]
  have hp : pyInt (((0 : ℚ) - 3600) / 3600 * ((DECAY_PER_HOUR : ℤ) : ℚ)) = -4 :=
    pyInt_int_eval _ (-4) harg
  simp only [apply_decay]
  rw [hp]
  omega

theorem apply_decay_nonneg (r : MoodRec) (now : ℚ) :
    0 ≤ (apply_decay r now).happiness := by
  simp only [apply_decay]
  exact le_max_left _ _

theorem decay_amount_nonneg (r : MoodRec) (now : ℚ) (h : r.last_pet ≤ now) :
    0 ≤ pyInt ((now - r.last_pet) / 3600 * ((DECAY_PER_HOUR : ℤ) : ℚ)) := by
  apply pyInt_nonneg
  have h1 : (0 : ℚ) ≤ (now - r.last_pet) / 3600 := by
    apply div_nonneg (by linarith) (by norm_num)
  have h2 : (0 : ℚ) ≤ ((DECAY_PER_HOUR : ℤ) : ℚ) := by norm_num [DECAY_PER_HOUR]
  exact mul_nonneg h1 h2

theorem apply_decay_le (r : MoodRec) (now : ℚ) (h0 : 0 ≤ r.happiness)
    (h : r.last_pet ≤ now) : (apply_decay r now).happiness ≤ r.happiness := by
  have hd := decay_amount_nonneg r now h
  obtain ⟨hp, lp⟩ := r
  simp only [apply_decay] at hd ⊢
  simp only at h0
  revert hd h0
  generalize pyInt ((now - lp) / 3600 * ((DECAY_PER_HOUR : ℤ) : ℚ)) = d
  intro hd h0
  omega

/-- Decay with zero elapsed time: a record whose `last_pet` equals the
clock only gets clamped below at 0. -/
theorem apply_decay_now (h : ℤ) (now : ℚ) :
    apply_decay ⟨h, now⟩ now = ⟨max 0 h, now⟩ := by
  simp only [apply_decay]
  rw [sub_self, zero_div, zero_mul, pyInt_zero, sub_zero]

/-- C6: the `/pet` transition (decay, then `min(100, · + 5)` boost, then
`last_pet := now`) keeps happiness inside [0, 100] for every stored record
whose happiness is in [0, 100] and every non-negative elapsed time. -/
theorem c6_pet_happiness_in_range (uid : String) (r : MoodRec) (now : ℚ)
    (h0 : 0 ≤ r.happiness) (_h1 : r.happiness ≤ 100) (h2 : r.last_pet ≤ now) :
    0 ≤ (pet ⟨[(uid, r)]⟩ uid now).1.happiness
      ∧ (pet ⟨[(uid, r)]⟩ uid now).1.happiness ≤ 100 := by
  have e : (pet ⟨[(uid, r)]⟩ uid now).1
      = ⟨min 100 ((apply_decay r now).happiness + BOOST_ON_PET), now⟩ := by
    simp [pet, pet_compute, read_db, dbLookup]
  rw [e]
  have n1 := apply_decay_nonneg r now
  have n2 := apply_decay_le r now h0 h2
  simp only [BOOST_ON_PET]
  omega

/-- C6 witness: a fresh-default-shaped record (`happiness = 80`) petted with
zero elapsed time stays inside the range. -/
theorem c6_witness :
    (0 : ℤ) ≤ (⟨80, 0⟩ : MoodRec).happiness
  ∧ (⟨80, 0⟩ : MoodRec).happiness ≤ 100
  ∧ (⟨80, 0⟩ : MoodRec).last_pet ≤ (0 : ℚ)
  ∧ (0 ≤ (pet ⟨[("u", ⟨80, 0⟩)]⟩ "u" 0).1.happiness
      ∧ (pet ⟨[("u", ⟨80, 0⟩)]⟩ "u" 0).1.happiness ≤ 100) :=
  ⟨by decide, by decide, by norm_num,
    c6_pet_happiness_in_range "u" ⟨80, 0⟩ 0 (by decide) (by decide) (by norm_num)⟩

/-- C7: the `/state` handler is a pure query — it returns the decay
projection of the fetched-or-default record and leaves the state file
exactly as it was (it never calls `write_db`, so it neither creates nor
modifies any stored record); on the spec's scenario (stored happiness 77,
five hours elapsed) the projection is 57. -/
theorem c7_state_is_pure_query (fs : FS) (uid : String) (now : ℚ) :
    (state fs uid now).2 = fs
  ∧ (state fs uid now).1
      = apply_decay ((dbLookup (read_db fs) uid).getD (default_state now)) now
  ∧ (state ⟨[("7", ⟨77, 0⟩)]⟩ "7" 18000).1.happiness = 57 := by
  refine ⟨rfl, rfl, ?_⟩
  have harg : ((18000 : ℚ) - 0) / 3600 * ((DECAY_PER_HOUR : ℤ) : ℚ) = ((20 : ℤ) : ℚ) := by
    norm_num [DECAY_PER_HOUR]
  have hp : pyInt (((18000 : ℚ) - 0) / 3600 * ((DECAY_PER_HOUR : ℤ) : ℚ)) = 20 :=
    pyInt_int_eval _ 20 harg
  have e : (state ⟨[("7", ⟨77, 0⟩)]⟩ "7" 18000).1 = apply_decay ⟨77, 0⟩ 18000 := rfl
  rw [e]
  simp only [apply_decay]
  rw [hp]
  omega

/-- C8: a record is created on first observation with happiness 80 and
`last_pet = now`; a fresh identity petted twice with negligible (zero)
elapsed time gets happiness 85 from the first call and 90 from the second. -/
theorem c8_fresh_identity_pet_twice (uid : String) (now : ℚ) :
    default_state now = ⟨80, now⟩
  ∧ (pet ⟨[]⟩ uid now).1.happiness = 85
  ∧ (pet (pet ⟨[]⟩ uid now).2 uid now).1.happiness = 90 := by
  have e1 : pet ⟨[]⟩ uid now = (⟨85, now⟩, ⟨[(uid, ⟨85, now⟩)]⟩) := by
    simp only [pet, pet_compute, read_db, dbLookup, Option.getD, default_state]
    rw [apply_decay_now]
    simp only [write_db, dbInsert, BOOST_ON_PET]
    norm_num
  have e2 : pet ⟨[(uid, ⟨85, now⟩)]⟩ uid now = (⟨90, now⟩, ⟨[(uid, ⟨90, now⟩)]⟩) := by
    simp only [pet, pet_compute, read_db, dbLookup, if_pos, Option.getD]
    rw [apply_decay_now]
    simp only [write_db, dbInsert, BOOST_ON_PET]
    norm_num
  refine ⟨rfl, ?_, ?_⟩
  · rw [e1]
  · rw [e1, e2]

/-- C9: the `/pet` handler is a read-modify-write of the whole state file
with no locking; when two requests for the same fresh identity both read
the file before either writes (the race the claim covers), the surviving
record has happiness 85 — the first boost is silently lost — whereas the
two interactions applied in sequence store happiness 90. -/
theorem c9_racing_pets_lose_boost :
    (dbLookup
        (read_db
          (write_db
            (write_db ⟨[]⟩
              (dbInsert (read_db (⟨[]⟩ : FS)) "7" (pet_compute (read_db (⟨[]⟩ : FS)) "7" 0)))
            (dbInsert (read_db (⟨[]⟩ : FS)) "7" (pet_compute (read_db (⟨[]⟩ : FS)) "7" 0))))
        "7" = some ⟨85, 0⟩)
  ∧ dbLookup (read_db (pet (pet ⟨[]⟩ "7" 0).2 "7" 0).2) "7" = some ⟨90, 0⟩ := by
  have hc : pet_compute ([] : Db) "7" 0 = ⟨85, 0⟩ := by
    simp only [pet_compute, dbLookup, Option.getD, default_state]
    rw [apply_decay_now]
    simp only [BOOST_ON_PET]
    norm_num
  constructor
  · simp only [read_db, write_db, hc, dbInsert, dbLookup, if_pos]
  · have e1 : pet ⟨[]⟩ "7" 0 = (⟨85, 0⟩, ⟨[("7", ⟨85, 0⟩)]⟩) := by
      simp only [pet, read_db, write_db, hc, dbInsert]
    have e2 : pet ⟨[("7", ⟨85, 0⟩)]⟩ "7" 0 = (⟨90, 0⟩, ⟨[("7", ⟨90, 0⟩)]⟩) := by
      simp only [pet, pet_compute, read_db, dbLookup, if_pos, Option.getD]
      rw [apply_decay_now]
      simp only [write_db, dbInsert, BOOST_ON_PET]
      norm_num
    rw [e1, e2]
    simp [dbLookup]

/-- C10: a `/pet` interaction by identity `uid` leaves every other
identity's stored record untouched, even though the handler rewrites the
whole file: for any `v ≠ uid` the lookup of `v` is unchanged. -/
theorem c10_pet_only_touches_caller (fs : FS) (uid v : String) (now : ℚ)
    (h : v ≠ uid) :
    dbLookup (read_db (pet fs uid now).2) v = dbLookup (read_db fs) v := by
  simp only [pet, read_db, write_db]
  exact dbLookup_dbInsert_ne fs.contents uid v _ h

/-- C10 witness: petting identity `"b"` does not disturb the stored record
of identity `"a"`. -/
theorem c10_witness :
    ("a" : String) ≠ "b"
  ∧ dbLookup (read_db (pet ⟨[("a", ⟨10, 0⟩)]⟩ "b" 0).2) "a"
      = dbLookup (read_db ⟨[("a", ⟨10, 0⟩)]⟩) "a" :=
  ⟨by decide, c10_pet_only_touches_caller ⟨[("a", ⟨10, 0⟩)]⟩ "b" "a" 0 (by decide)⟩

/-!
SignatureVerifier (spec §4.1).  `src/validate.py` delegates parsing and
HMAC checking to the external `init_data_py` library (`InitData.parse`,
`InitData.validate`), whose source is not part of this repository; the
definitions below up to `verify` are therefore modelled from the spec.
The SHA-256 key derivation and the HMAC-SHA256 hex digest are abstracted
as function parameters: the claims under proof concern the control flow
around them (canonicalization, comparison, expiry), not the compression
functions themselves.
-/

/-- Value of a hexadecimal digit character, if it is one. -/
def hexDigitVal (c : Char) : Option ℕ :=
  if '0' ≤ c ∧ c ≤ '9' then some (c.toNat - 48)
  else if 'a' ≤ c ∧ c ≤ 'f' then some (c.toNat - 87)
  else if 'A' ≤ c ∧ c ≤ 'F' then some (c.toNat - 55)
  else none

/-- Modelled from the spec: URL percent-decoding of a query component
(`%XX` escapes and `+` for space), as performed by the missing
`InitData.parse`; an invalid escape is kept literally. -/
def percentDecodeAux : List Char → List Char
  | [] => []
  | '%' :: h1 :: h2 :: rest =>
    match hexDigitVal h1, hexDigitVal h2 with
    | some a, some b => Char.ofNat (16 * a + b) :: percentDecodeAux rest
    | _, _ => '%' :: percentDecodeAux (h1 :: h2 :: rest)
  | '+' :: rest => ' ' :: percentDecodeAux rest
  | c :: rest => c :: percentDecodeAux rest

def percentDecode (s : String) : String := String.mk (percentDecodeAux s.data)

/-- Split a character list at every occurrence of `c`. -/
def splitOnChar (c : Char) : List Char → List (List Char)
  | [] => [[]]
  | x :: rest =>
    if x = c then [] :: splitOnChar c rest
    else
      match splitOnChar c rest with
      | [] => [[x]]
      | y :: ys => (x :: y) :: ys

/-- Split a query component at its first `=`, failing if there is none. -/
def splitEq : List Char → Option (List Char × List Char)
  | [] => none
  | '=' :: rest => some ([], rest)
  | x :: rest =>
    match splitEq rest with
    | none => none
    | some (k, v) => some (x :: k, v)

def parsePairsAux : List (List Char) → Option (List (String × String))
  | [] => some []
  | p :: rest =>
    match splitEq p with
    | none => none
    | some (k, v) =>
      match parsePairsAux rest with
      | none => none
      | some l => some ((percentDecode (String.mk k), percentDecode (String.mk v)) :: l)

/-- Modelled from the spec, step 1: parse the raw token as a URL-encoded
query string into an ordered list of decoded key–value pairs; fails when a
component has no `=` (in particular on the empty token, so a token with no
fields is rejected here). -/
def parsePairs (raw : String) : Option (List (String × String)) :=
  parsePairsAux (splitOnChar '&' raw.data)

def lookupField : List (String × String) → String → Option String
  | [], _ => none
  | (k, v) :: rest, f => if k = f then some v else lookupField rest f

def removeField : List (String × String) → String → List (String × String)
  | [], _ => []
  | (k, v) :: rest, f =>
    if k = f then removeField rest f else (k, v) :: removeField rest f

def digitsToNatAux : List Char → ℕ → Option ℕ
  | [], acc => some acc
  | c :: rest, acc =>
    if c.isDigit then digitsToNatAux rest (acc * 10 + (c.toNat - 48)) else none

def parseNatChars : List Char → Option ℕ
  | [] => none
  | l => digitsToNatAux l 0

/-- Decimal integer parsing for the `auth_date` field. -/
def parseIntChars : List Char → Option ℤ
  | '-' :: rest => (parseNatChars rest).map (fun n => -(n : ℤ))
  | l => (parseNatChars l).map (fun n => (n : ℤ))

def idKeyChars : List Char := ['"', 'i', 'd', '"', ':']

/-- Modelled from the spec, step 3: extract the integer `id` member from
the JSON-encoded `user` field (the minified form the platform issues,
`"id":<digits>` with no interior whitespace). -/
def extractUserId : List Char → Option ℤ
  | [] => none
  | c :: rest =>
    if idKeyChars.isPrefixOf (c :: rest) then
      match ((c :: rest).drop idKeyChars.length).takeWhile Char.isDigit with
      | [] => none
      | ds => (parseNatChars ds).map (fun n => (n : ℤ))
    else extractUserId rest

/-- Code-point lexicographic order on character lists (Python string
comparison, used by `sorted`). -/
def charListLe : List Char → List Char → Bool
  | [], _ => true
  | _ :: _, [] => false
  | a :: as, b :: bs =>
    if a.toNat < b.toNat then true
    else if b.toNat < a.toNat then false
    else charListLe as bs

def strLe (a b : String) : Bool := charListLe a.data b.data

def insertSorted (p : String × String) :
    List (String × String) → List (String × String)
  | [] => [p]
  | q :: rest => if strLe p.1 q.1 then p :: q :: rest else q :: insertSorted p rest

/-- Stable insertion sort of the fields by key (Python `sorted` on keys). -/
def sortFields : List (String × String) → List (String × String)
  | [] => []
  | p :: rest => insertSorted p (sortFields rest)

def fieldLine (p : String × String) : String := p.1 ++ "=" ++ p.2

def joinLines : List String → String
  | [] => ""
  | [s] => s
  | s :: rest => s ++ "\n" ++ joinLines rest

/-- Modelled from the spec, step 4: the canonical data-check string — all
fields except `hash`, sorted lexicographically by key, joined as
`key=value` lines with newline separators. -/
def dataCheckString (pairs : List (String × String)) : String :=
  joinLines ((sortFields pairs).map fieldLine)

/-- The structural part of a token accepted by steps 1–3 of the spec:
its non-`hash` fields in original order, the extracted `hash` value, the
integer `auth_date`, and the integer `user.id` when a `user` field is
present. -/
structure InitParsed where
  pairs : List (String × String)
  hashField : String
  authDate : ℤ
  userId : Option ℤ
deriving DecidableEq, Repr

/-- Modelled from the spec, steps 1–3: structural parsing and validation
of the raw token, with the spec's `Malformed` reasons. -/
def parseInit (raw : String) : Except String InitParsed :=
  match parsePairs raw with
  | none => Except.error "parsing failed or no fields present"
  | some pairs =>
    match lookupField pairs "hash" with
    | none => Except.error "hash field absent"
    | some h =>
      let others := removeField pairs "hash"
      match (lookupField others "auth_date").bind (fun s => parseIntChars s.data) with
      | none => Except.error "auth_date absent or not a valid integer"
      | some ad =>
        match lookupField others "user" with
        | none => Except.ok ⟨others, h, ad, none⟩
        | some u =>
          match extractUserId u.data with
          | none => Except.error "user field is not valid JSON with an integer id"
          | some i => Except.ok ⟨others, h, ad, some i⟩

/-- Result type `AuthResult` from spec §4.1. -/
inductive AuthResult where
  | Valid (identity : Option String) (issuedAt : ℤ)
  | Malformed (reason : String)
  | InvalidSignature
  | Expired
deriving DecidableEq, Repr

/-- Modelled from the spec, steps 1–8: `verify(rawToken, sharedSecret,
maxAge)`, with the wall clock `now` explicit.  `sha256key` abstracts the
SHA-256 key derivation of step 5 and `hmacSha256Hex` the hex-encoded
HMAC-SHA256 of step 6; the signature is checked before expiry, matching
the spec's step order. -/
def verify (sha256key : String → String) (hmacSha256Hex : String → String → String)
    (sharedSecret raw : String) (maxAge now : ℤ) : AuthResult :=
  match parseInit raw with
  | Except.error reason => AuthResult.Malformed reason
  | Except.ok p =>
    if p.hashField = hmacSha256Hex (sha256key sharedSecret) (dataCheckString p.pairs) then
      if p.authDate + maxAge < now then AuthResult.Expired
      else AuthResult.Valid (p.userId.map (fun i => toString i)) p.authDate
    else AuthResult.InvalidSignature

/-- An HTTP error response as raised by `src/validate.py`. -/
structure HTTPError where
  statusCode : ℕ
  detail : String
deriving DecidableEq, Repr

/-- The 400 detail string of `src/validate.py`. -/
def MALFORMED_DETAIL : String :=
  "initData missing or malformed – open this page inside Telegram"

/-- The 403 detail string of `src/validate.py` — a single message shared
by the invalid-signature and expired cases. -/
def INVALID_DETAIL : String := "initData signature invalid or expired"

/-- Function `get_init_data` from `src/validate.py`: a malformed token raises
HTTP 400, a failed validation (bad signature or expired) raises HTTP 403,
and a valid token yields the parsed identity and issue time. -/
def get_init_data (sha256key : String → String)
    (hmacSha256Hex : String → String → String) (raw botToken : String)
    (lifetime now : ℤ) : Except HTTPError (Option String × ℤ) :=
  match verify sha256key hmacSha256Hex botToken raw lifetime now with
  | AuthResult.Malformed _ => Except.error ⟨400, MALFORMED_DETAIL⟩
  | AuthResult.InvalidSignature => Except.error ⟨403, INVALID_DETAIL⟩
  | AuthResult.Expired => Except.error ⟨403, INVALID_DETAIL⟩
  | AuthResult.Valid i a => Except.ok (i, a)

/-- C1: for every choice of the hash primitives, every shared secret and
every raw token that passes structural parsing with user id `u`, `verify`
returns `Valid` carrying the identity `str(u)` if and only if the token's
`hash` field equals the hex HMAC-SHA256, keyed by SHA-256 of the shared
secret, of the canonical data-check string, and the token is not expired;
and any token whose `hash` field differs from that digest (in particular
one altered by a single character) is rejected as `InvalidSignature`. -/
theorem c1_verify_valid_iff (sha256key : String → String)
    (hmacSha256Hex : String → String → String) (secret raw : String)
    (maxAge now : ℤ) (p : InitParsed) (u : ℤ)
    (hp : parseInit raw = Except.ok p) (hu : p.userId = some u) :
    (verify sha256key hmacSha256Hex secret raw maxAge now
        = AuthResult.Valid (some (toString u)) p.authDate
      ↔ (p.hashField = hmacSha256Hex (sha256key secret) (dataCheckString p.pairs)
          ∧ ¬(p.authDate + maxAge < now)))
  ∧ (p.hashField ≠ hmacSha256Hex (sha256key secret) (dataCheckString p.pairs) →
      verify sha256key hmacSha256Hex secret raw maxAge now
        = AuthResult.InvalidSignature) := by
  simp only [verify, hp]
  by_cases hh : p.hashField = hmacSha256Hex (sha256key secret) (dataCheckString p.pairs)
  · rw [if_pos hh]
    by_cases he : p.authDate + maxAge < now
    · rw [if_pos he]
      simp [hh, he]
    · rw [if_neg he]
      simp [hh, he, hu]
  · rw [if_neg hh]
    simp [hh]

def sha0 : String → String := fun _ => "K"

def hmac0 : String → String → String := fun _ _ => "abc"

def raw0 : String := "auth_date=5&user=\x7b\"id\":7\x7d&hash=abc"

def p0 : InitParsed :=
  ⟨[("auth_date", "5"), ("user", "\x7b\"id\":7\x7d")], "abc", 5, some 7⟩

/-- C1 witness: a concrete token with `auth_date=5`, a user with id 7 and
hash field `abc`, against primitives whose digest is the constant `abc`. -/
theorem c1_witness :
    parseInit raw0 = Except.ok p0
  ∧ p0.userId = some 7
  ∧ ((verify sha0 hmac0 "secret" raw0 3600 100
        = AuthResult.Valid (some (toString (7 : ℤ))) p0.authDate
      ↔ (p0.hashField = hmac0 (sha0 "secret") (dataCheckString p0.pairs)
          ∧ ¬(p0.authDate + 3600 < 100)))
      ∧ (p0.hashField ≠ hmac0 (sha0 "secret") (dataCheckString p0.pairs) →
          verify sha0 hmac0 "secret" raw0 3600 100 = AuthResult.InvalidSignature)) :=
  ⟨rfl, rfl,
    c1_verify_valid_iff sha0 hmac0 "secret" raw0 3600 100 p0 7 rfl rfl⟩

/-- C5: `get_init_data` surfaces exactly two client-facing failure
categories: HTTP 400 with the malformed-input detail precisely when
structural parsing fails (unparseable token, no fields, missing `hash`
field, and the spec's other structural rejections), and HTTP 403 with one
fixed detail string precisely when the token parses but its hash does not
match the expected digest or its `auth_date` is more than `lifetime`
seconds before `now` — so an expired token gets 403 even with a correct
hash and the response does not reveal which of the two checks failed; the
two error responses are distinct. -/
theorem c5_error_classification (sha256key : String → String)
    (hmacSha256Hex : String → String → String) (raw botToken : String)
    (lifetime now : ℤ) :
    (get_init_data sha256key hmacSha256Hex raw botToken lifetime now
        = Except.error ⟨400, MALFORMED_DETAIL⟩
      ↔ ∃ e, parseInit raw = Except.error e)
  ∧ (get_init_data sha256key hmacSha256Hex raw botToken lifetime now
        = Except.error ⟨403, INVALID_DETAIL⟩
      ↔ ∃ p, parseInit raw = Except.ok p
          ∧ (p.hashField ≠ hmacSha256Hex (sha256key botToken) (dataCheckString p.pairs)
              ∨ p.authDate + lifetime < now))
  ∧ (⟨400, MALFORMED_DETAIL⟩ : HTTPError) ≠ ⟨403, INVALID_DETAIL⟩ := by
  refine ⟨?_, ?_, by simp [MALFORMED_DETAIL, INVALID_DETAIL]⟩
  · cases eq : parseInit raw with
    | error e => simp [get_init_data, verify, eq]
    | ok p =>
      simp only [get_init_data, verify, eq]
      by_cases hh : p.hashField = hmacSha256Hex (sha256key botToken) (dataCheckString p.pairs)
      · rw [if_pos hh]
        by_cases he : p.authDate + lifetime < now
        · rw [if_pos he]
          simp [eq, MALFORMED_DETAIL, INVALID_DETAIL]
        · rw [if_neg he]
          simp [eq]
      · rw [if_neg hh]
        simp [eq, MALFORMED_DETAIL, INVALID_DETAIL]
  · cases eq : parseInit raw with
    | error e =>
      simp [get_init_data, verify, eq, MALFORMED_DETAIL, INVALID_DETAIL]
    | ok p =>
      simp only [get_init_data, verify, eq]
      by_cases hh : p.hashField = hmacSha256Hex (sha256key botToken) (dataCheckString p.pairs)
      · rw [if_pos hh]
        by_cases he : p.authDate + lifetime < now
        · rw [if_pos he]
          simp [eq, hh, he]
        · rw [if_neg he]
          simp [eq, hh, he]
      · rw [if_neg hh]
        simp [eq, hh]

end Pusha
